import Mathlib

set_option linter.unusedVariables false

/-!
Verification development for the `splan` genetic-algorithm timetabler.

The repository contains three Go files (src/main.go, src/unnamed/part_000,
src/unnamed/part_001) sharing one data model and one set of GA operators.
They differ only in the fitness penalty constants (main.go and part_000
use a teacher-conflict weight of 10 and a room-conflict weight of 1;
part_001 uses 20 for both) and in their `main` driver loops.

Modelling conventions:
* Go `time.Weekday` is a `Nat`; Go `time.Time` values inside a `TimeSlot`
  are `Int` instants with `Before` = `<`.
* Go slices become `List`s; Go `int` becomes `Int` (or `Nat` for indices);
  Go `float64` (only used for the mutation rate and `rand.Float64()`
  draws) becomes `Rat`.
* `math/rand` is modelled by `RandState`: an infinite stream of naturals
  for `rand.Intn` (a call with bound `n` yields `stream pos % n`) and an
  infinite stream of rationals for `rand.Float64()`, with separate
  cursors.  `rand.Intn 0` panics in Go; a panic is modelled by `none`,
  so every operation that can panic returns an `Option`.
* The Go `Class` struct carries pointers `*Teacher`, `*Room`, `*TimeSlot`.
  For everything except the aliasing analysis the pointers are modelled
  by values (the functions under study only read through them, or - in
  `mutate` - overwrite the whole field).  A separate heap-based model
  (`Heap`, `GeneH`, `ChromosomeH` below) keeps the pointer indirection
  explicit, to settle the crossover/mutation aliasing question.
-/

namespace Splan

/-- Teacher record (main.go lines 9-14): identifier, display name, subjects
the teacher can teach, weekdays available to teach. -/
structure Teacher where
  ID : String
  Name : String
  Subjects : List String
  Available : List Nat
deriving Inhabited, DecidableEq

/-- Room record (main.go lines 16-19): identifier and seating capacity. -/
structure Room where
  ID : String
  Capacity : Int
deriving Inhabited, DecidableEq

/-- Time slot (main.go lines 21-25): a weekday plus start and end instants. -/
structure TimeSlot where
  Day : Nat
  Start : Int
  End : Int
deriving Inhabited, DecidableEq

/-- Class record (main.go lines 27-33): a subject with required capacity,
plus the assigned teacher/room/slot.  In Go the three bindings are nullable
pointers; catalog entries leave them nil and no code reads a nil binding,
so the model uses plain values. -/
structure Class where
  Subject : String
  Teacher : Teacher
  Room : Room
  TimeSlot : TimeSlot
  Capacity : Int
deriving Inhabited, DecidableEq

/-- `timeSlotsOverlap` (main.go lines 36-38): same weekday and the
half-open intervals intersect; Go `time.Time.Before` is strict `<`. -/
def timeSlotsOverlap (slot1 slot2 : TimeSlot) : Bool :=
  slot1.Day == slot2.Day && decide (slot1.Start < slot2.End) &&
    decide (slot2.Start < slot1.End)

/-- `checkTeacherAvailability` (main.go lines 41-50): the teacher is
available on the weekday of the slot (date-coarse; no hour check). -/
def checkTeacherAvailability (teacher : Teacher) (timeSlot : TimeSlot) : Bool :=
  teacher.Available.any (fun availableDay => availableDay == timeSlot.Day)

/-- `checkRoomCapacity` (main.go lines 64-66). -/
def checkRoomCapacity (class' : Class) (room : Room) : Bool :=
  decide (class'.Capacity ≤ room.Capacity)

/-- `checkTeacherQualification` (main.go lines 69-76). -/
def checkTeacherQualification (teacher : Teacher) (subject : String) : Bool :=
  teacher.Subjects.any (fun subj => subj == subject)

/-- `Gene` (main.go lines 78-80): one resolved class assignment. -/
structure Gene where
  ClassAssignment : Class
deriving Inhabited, DecidableEq

/-- `Chromosome` (main.go lines 82-84): an ordered gene sequence. -/
structure Chromosome where
  Genes : List Gene
deriving Inhabited, DecidableEq

/-- `Population` (main.go lines 86-88). -/
structure Population where
  Timetables : List Chromosome
deriving Inhabited, DecidableEq

/-- `calculateFitness` (main.go lines 115-147 and part_001 lines 120-152),
with the two penalty constants abstracted: main.go and part_000 subtract
`10` per same-teacher overlapping ordered pair and `1` per same-room
overlapping ordered pair, part_001 subtracts `20` for each.  The nested
loops run over all ordered index pairs `(i, j)` with `i ≠ j`, and the
per-gene qualification/capacity/availability checks each subtract one.
The `classes` parameter mirrors the Go signature; the Go body never reads
it. -/
def calculateFitnessGen (wT wR : Int) (chromosome : Chromosome)
    (classes : List Class) : Int :=
  chromosome.Genes.enum.foldl (fun fitness p =>
    let i := p.1
    let gene1 := p.2
    let fitness := chromosome.Genes.enum.foldl (fun fitness q =>
      let j := q.1
      let gene2 := q.2
      if i ≠ j then
        if timeSlotsOverlap gene1.ClassAssignment.TimeSlot
            gene2.ClassAssignment.TimeSlot then
          let fitness :=
            if gene1.ClassAssignment.Teacher.ID == gene2.ClassAssignment.Teacher.ID
            then fitness - wT else fitness
          if gene1.ClassAssignment.Room.ID == gene2.ClassAssignment.Room.ID
          then fitness - wR else fitness
        else fitness
      else fitness) fitness
    let fitness :=
      if checkTeacherQualification gene1.ClassAssignment.Teacher
          gene1.ClassAssignment.Subject
      then fitness else fitness - 1
    let fitness :=
      if checkRoomCapacity gene1.ClassAssignment gene1.ClassAssignment.Room
      then fitness else fitness - 1
    if checkTeacherAvailability gene1.ClassAssignment.Teacher
        gene1.ClassAssignment.TimeSlot
    then fitness else fitness - 1) 0

/-- `calculateFitness` of src/main.go (lines 115-147): teacher-conflict
weight 10, room-conflict weight 1. -/
def calculateFitness (chromosome : Chromosome) (classes : List Class) : Int :=
  calculateFitnessGen 10 1 chromosome classes

/-- `calculateFitness` of src/unnamed/part_001 (lines 120-152): both
conflict weights are 20. -/
def calculateFitnessV (chromosome : Chromosome) (classes : List Class) : Int :=
  calculateFitnessGen 20 20 chromosome classes

/-- Spec-side penalty of one ordered pair of genes: minus the teacher
weight when the slots overlap and the teacher IDs coincide, minus the room
weight when the slots overlap and the room IDs coincide. -/
def pairConflictPenalty (wT wR : Int) (g1 g2 : Gene) : Int :=
  if timeSlotsOverlap g1.ClassAssignment.TimeSlot g2.ClassAssignment.TimeSlot then
    (if g1.ClassAssignment.Teacher.ID == g2.ClassAssignment.Teacher.ID
     then -wT else 0) +
    (if g1.ClassAssignment.Room.ID == g2.ClassAssignment.Room.ID
     then -wR else 0)
  else 0

/-- Spec-side per-gene penalty: minus one for each failed check among
qualification, room capacity and weekday availability. -/
def geneDefectPenalty (g : Gene) : Int :=
  (if checkTeacherQualification g.ClassAssignment.Teacher
      g.ClassAssignment.Subject then 0 else -1) +
  (if checkRoomCapacity g.ClassAssignment g.ClassAssignment.Room
   then 0 else -1) +
  (if checkTeacherAvailability g.ClassAssignment.Teacher
      g.ClassAssignment.TimeSlot then 0 else -1)

/-- Spec-side fitness: the sum over all ordered pairs of distinct gene
positions of their conflict penalty, plus the sum over genes of the
per-gene defect penalty (spec section 4.2). -/
def fitnessSpec (wT wR : Int) (c : Chromosome) : Int :=
  (c.Genes.enum.map (fun p =>
    (c.Genes.enum.map (fun q =>
      if p.1 ≠ q.1 then pairConflictPenalty wT wR p.2 q.2 else 0)).sum
    + geneDefectPenalty p.2)).sum

/-- A left fold whose step adds a per-element delta is the start value plus
the sum of the deltas. -/
theorem foldl_step_add {α : Type} (step : Int → α → Int) (δ : α → Int)
    (h : ∀ f x, step f x = f + δ x) :
    ∀ (l : List α) (a : Int), l.foldl step a = a + (l.map δ).sum := by
  intro l
  induction l with
  | nil => intro a; simp
  | cons x xs ih =>
      intro a
      simp only [List.foldl_cons, List.map_cons, List.sum_cons, h, ih,
        add_assoc]

/-- The inner loop of `calculateFitnessGen` subtracts exactly the pair
conflict penalty of each ordered pair with distinct indices. -/
theorem fitness_inner_step (wT wR : Int) (i : Nat) (gene1 : Gene) :
    ∀ (f : Int) (q : Nat × Gene),
      (if i ≠ q.1 then
        if timeSlotsOverlap gene1.ClassAssignment.TimeSlot
            q.2.ClassAssignment.TimeSlot then
          let f' :=
            if gene1.ClassAssignment.Teacher.ID == q.2.ClassAssignment.Teacher.ID
            then f - wT else f
          if gene1.ClassAssignment.Room.ID == q.2.ClassAssignment.Room.ID
          then f' - wR else f'
        else f
      else f)
      = f + (if i ≠ q.1 then pairConflictPenalty wT wR gene1 q.2 else 0) := by
  intro f q
  by_cases hij : i ≠ q.1
  · simp only [hij, if_true, pairConflictPenalty]
    cases hov : timeSlotsOverlap gene1.ClassAssignment.TimeSlot
        q.2.ClassAssignment.TimeSlot
    · simp
    · simp only [if_true]
      cases ht : gene1.ClassAssignment.Teacher.ID == q.2.ClassAssignment.Teacher.ID <;>
        cases hr : gene1.ClassAssignment.Room.ID == q.2.ClassAssignment.Room.ID <;>
          simp <;> omega
  · simp [hij]

/-- `calculateFitnessGen` equals the spec-side sum of penalties. -/
theorem calculateFitnessGen_eq_spec (wT wR : Int) (c : Chromosome)
    (classes : List Class) :
    calculateFitnessGen wT wR c classes = fitnessSpec wT wR c := by
  unfold calculateFitnessGen fitnessSpec
  rw [foldl_step_add _
    (fun p => (c.Genes.enum.map (fun q =>
        if p.1 ≠ q.1 then pairConflictPenalty wT wR p.2 q.2 else 0)).sum
      + geneDefectPenalty p.2)]
  · simp
  · intro f p
    simp only
    rw [foldl_step_add _
      (fun q => if p.1 ≠ q.1 then pairConflictPenalty wT wR p.2 q.2 else 0)
      (fitness_inner_step wT wR p.1 p.2) c.Genes.enum f]
    unfold geneDefectPenalty
    cases hq : checkTeacherQualification p.2.ClassAssignment.Teacher
        p.2.ClassAssignment.Subject <;>
      cases hc : checkRoomCapacity p.2.ClassAssignment p.2.ClassAssignment.Room <;>
        cases ha : checkTeacherAvailability p.2.ClassAssignment.Teacher
            p.2.ClassAssignment.TimeSlot <;>
          simp <;> omega

/-- Each ordered-pair penalty is nonpositive when the weights are
nonnegative. -/
theorem pairConflictPenalty_nonpos (wT wR : Int) (hT : 0 ≤ wT) (hR : 0 ≤ wR)
    (g1 g2 : Gene) : pairConflictPenalty wT wR g1 g2 ≤ 0 := by
  unfold pairConflictPenalty
  cases timeSlotsOverlap g1.ClassAssignment.TimeSlot g2.ClassAssignment.TimeSlot
  · simp
  · simp only [if_true]
    cases g1.ClassAssignment.Teacher.ID == g2.ClassAssignment.Teacher.ID <;>
      cases g1.ClassAssignment.Room.ID == g2.ClassAssignment.Room.ID <;>
        simp <;> omega

/-- Each per-gene penalty is nonpositive. -/
theorem geneDefectPenalty_nonpos (g : Gene) : geneDefectPenalty g ≤ 0 := by
  unfold geneDefectPenalty
  cases checkTeacherQualification g.ClassAssignment.Teacher g.ClassAssignment.Subject <;>
    cases checkRoomCapacity g.ClassAssignment g.ClassAssignment.Room <;>
      cases checkTeacherAvailability g.ClassAssignment.Teacher g.ClassAssignment.TimeSlot <;>
        simp

/-- Sums of nonpositive integer lists are nonpositive. -/
theorem list_sum_nonpos : ∀ (l : List Int), (∀ x ∈ l, x ≤ 0) → l.sum ≤ 0 := by
  intro l
  induction l with
  | nil => intro _; simp
  | cons x xs ih =>
      intro h
      simp only [List.sum_cons]
      have hx := h x (List.mem_cons_self x xs)
      have hxs := ih (fun y hy => h y (List.mem_cons_of_mem x hy))
      omega

/-- The generic fitness never exceeds zero for nonnegative weights. -/
theorem calculateFitnessGen_nonpos (wT wR : Int) (hT : 0 ≤ wT) (hR : 0 ≤ wR)
    (c : Chromosome) (classes : List Class) :
    calculateFitnessGen wT wR c classes ≤ 0 := by
  rw [calculateFitnessGen_eq_spec]
  unfold fitnessSpec
  apply list_sum_nonpos
  intro x hx
  rw [List.mem_map] at hx
  obtain ⟨p, _, hpx⟩ := hx
  subst hpx
  have h1 : (c.Genes.enum.map (fun q =>
      if p.1 ≠ q.1 then pairConflictPenalty wT wR p.2 q.2 else 0)).sum ≤ 0 := by
    apply list_sum_nonpos
    intro y hy
    rw [List.mem_map] at hy
    obtain ⟨q, _, hqy⟩ := hy
    subst hqy
    by_cases hij : p.1 ≠ q.1
    · rw [if_pos hij]
      exact pairConflictPenalty_nonpos wT wR hT hR p.2 q.2
    · rw [if_neg hij]
  have h2 := geneDefectPenalty_nonpos p.2
  omega

/-- The shared `math/rand` generator: an infinite stream of naturals for
`rand.Intn` draws and an infinite stream of rationals for `rand.Float64()`
draws, each with its own cursor. -/
structure RandState where
  intStream : Nat → Nat
  ratStream : Nat → Rat
  intPos : Nat
  ratPos : Nat

/-- `rand.Intn n`: uniform draw in `[0, n)`, modelled as the next stream
value reduced mod `n`.  Go panics when `n ≤ 0` (here: `n = 0`), modelled
by `none`. -/
def randIntn (r : RandState) (n : Nat) : Option (Nat × RandState) :=
  if n = 0 then none
  else some (r.intStream r.intPos % n, { r with intPos := r.intPos + 1 })

/-- `rand.Float64()`: the next rational draw (Go guarantees a value in
`[0, 1)`; theorems that need that range assume it explicitly). -/
def randFloat64 (r : RandState) : Rat × RandState :=
  (r.ratStream r.ratPos, { r with ratPos := r.ratPos + 1 })

/-- `r` after `n` further `Intn` draws. -/
def advInt (r : RandState) (n : Nat) : RandState :=
  { r with intPos := r.intPos + n }

theorem advInt_succ (r : RandState) (n : Nat) :
    advInt r (n + 1) = advInt (advInt r 1) n := by
  simp only [advInt]
  congr 1
  omega

/-- `initializeRandomTimetable`'s per-class loop (main.go lines 91-112):
for every class draw a teacher, a room and a slot, and build a gene that
copies the class's subject and capacity. -/
def initGenes (classes : List Class) (teachers : List Teacher)
    (rooms : List Room) (timeSlots : List TimeSlot) (r : RandState) :
    Option (List Gene × RandState) :=
  match classes with
  | [] => some ([], r)
  | class' :: rest =>
    match randIntn r teachers.length with
    | none => none
    | some (ti, r) =>
      match randIntn r rooms.length with
      | none => none
      | some (ri, r) =>
        match randIntn r timeSlots.length with
        | none => none
        | some (si, r) =>
          let gene : Gene :=
            { ClassAssignment :=
              { Subject := class'.Subject
                Teacher := teachers.getD ti default
                Room := rooms.getD ri default
                TimeSlot := timeSlots.getD si default
                Capacity := class'.Capacity } }
          match initGenes rest teachers rooms timeSlots r with
          | none => none
          | some (genes, r) => some (gene :: genes, r)

/-- `initializeRandomTimetable` (main.go lines 91-112). -/
def initRandomTimetable (classes : List Class) (teachers : List Teacher)
    (rooms : List Room) (timeSlots : List TimeSlot) (r : RandState) :
    Option (Chromosome × RandState) :=
  match initGenes classes teachers rooms timeSlots r with
  | none => none
  | some (genes, r) => some (⟨genes⟩, r)

/-- The tournament loop of `TournamentSelection` (main.go lines 154-161),
running `tournamentSize` iterations; `best` starts at `-1` and
`bestFitness` at `-1000`, and a draw replaces the incumbent only when its
fitness is strictly greater (or on the very first draw, via `best = -1`). -/
def tournamentLoopGen (wT wR : Int) (population : Population)
    (classes : List Class) :
    Nat → Int → Int → RandState → Option (Int × Int × RandState)
  | 0, best, bestFitness, r => some (best, bestFitness, r)
  | n + 1, best, bestFitness, r =>
    match randIntn r population.Timetables.length with
    | none => none
    | some (individualIndex, r) =>
      let currentFitness :=
        calculateFitnessGen wT wR
          (population.Timetables.getD individualIndex default) classes
      if best = -1 ∨ bestFitness < currentFitness then
        tournamentLoopGen wT wR population classes n
          (individualIndex : Int) currentFitness r
      else
        tournamentLoopGen wT wR population classes n best bestFitness r

/-- `TournamentSelection` (main.go lines 150-163).  After the loop the Go
code indexes `population.Timetables[best]`; with `tournamentSize ≤ 0` the
loop never runs, `best` stays `-1` and the indexing panics (`none`). -/
def TournamentSelectionGen (wT wR : Int) (population : Population)
    (tournamentSize : Int) (classes : List Class) (r : RandState) :
    Option (Chromosome × RandState) :=
  match tournamentLoopGen wT wR population classes tournamentSize.toNat
      (-1) (-1000) r with
  | none => none
  | some (best, _bestFitness, r) =>
    if 0 ≤ best ∧ best.toNat < population.Timetables.length then
      some (population.Timetables.getD best.toNat default, r)
    else none

/-- `TournamentSelection` with src/main.go's fitness weights. -/
def TournamentSelection (population : Population) (tournamentSize : Int)
    (classes : List Class) (r : RandState) : Option (Chromosome × RandState) :=
  TournamentSelectionGen 10 1 population tournamentSize classes r

/-- `TournamentSelection` with part_001's fitness weights. -/
def TournamentSelectionV (population : Population) (tournamentSize : Int)
    (classes : List Class) (r : RandState) : Option (Chromosome × RandState) :=
  TournamentSelectionGen 20 20 population tournamentSize classes r

/-- `crossover` (main.go lines 190-203): draw one cut in
`[0, len(parent1.Genes))` (a panic - `none` - on empty parents), then take
parent1's genes before the cut and parent2's at or after it.  The Go loop
indexes `parent2.Genes[i]` for `i` up to `len(parent1.Genes) - 1`, which
panics when parent2 is shorter. -/
def crossover (parent1 parent2 : Chromosome) (r : RandState) :
    Option (Chromosome × RandState) :=
  match randIntn r parent1.Genes.length with
  | none => none
  | some (crossoverPoint, r) =>
    if parent2.Genes.length < parent1.Genes.length then none
    else some
      (⟨(List.range parent1.Genes.length).map (fun i =>
          if i < crossoverPoint then parent1.Genes.getD i default
          else parent2.Genes.getD i default)⟩, r)

/-- The per-gene loop of `mutate` (main.go lines 207-220): for each gene,
draw a float; when it is below the rate, draw a choice in `[0, 3)` and
replace the teacher, the room, or the time slot with a fresh catalog draw
(a panic - `none` - when the respective catalog is empty). -/
def mutateGenes (genes : List Gene) (teachers : List Teacher)
    (rooms : List Room) (timeSlots : List TimeSlot) (mutationRate : Rat)
    (r : RandState) : Option (List Gene × RandState) :=
  match genes with
  | [] => some ([], r)
  | g :: rest =>
    match randFloat64 r with
    | (f, r) =>
      if f < mutationRate then
        match randIntn r 3 with
        | none => none
        | some (mutationChoice, r) =>
          if mutationChoice = 0 then
            match randIntn r teachers.length with
            | none => none
            | some (ti, r) =>
              match mutateGenes rest teachers rooms timeSlots mutationRate r with
              | none => none
              | some (rest', r) =>
                some ({ g with ClassAssignment :=
                  { g.ClassAssignment with Teacher := teachers.getD ti default } }
                    :: rest', r)
          else if mutationChoice = 1 then
            match randIntn r rooms.length with
            | none => none
            | some (ri, r) =>
              match mutateGenes rest teachers rooms timeSlots mutationRate r with
              | none => none
              | some (rest', r) =>
                some ({ g with ClassAssignment :=
                  { g.ClassAssignment with Room := rooms.getD ri default } }
                    :: rest', r)
          else if mutationChoice = 2 then
            match randIntn r timeSlots.length with
            | none => none
            | some (si, r) =>
              match mutateGenes rest teachers rooms timeSlots mutationRate r with
              | none => none
              | some (rest', r) =>
                some ({ g with ClassAssignment :=
                  { g.ClassAssignment with TimeSlot := timeSlots.getD si default } }
                    :: rest', r)
          else
            match mutateGenes rest teachers rooms timeSlots mutationRate r with
            | none => none
            | some (rest', r) => some (g :: rest', r)
      else
        match mutateGenes rest teachers rooms timeSlots mutationRate r with
        | none => none
        | some (rest', r) => some (g :: rest', r)

/-- `mutate` (main.go lines 206-222), on the resulting values. -/
def mutate (chromosome : Chromosome) (teachers : List Teacher)
    (rooms : List Room) (timeSlots : List TimeSlot) (mutationRate : Rat)
    (r : RandState) : Option (Chromosome × RandState) :=
  match mutateGenes chromosome.Genes teachers rooms timeSlots mutationRate r with
  | none => none
  | some (genes, r) => some (⟨genes⟩, r)

/-- The generation loop of `CreateNewGeneration` (main.go lines 169-184):
`for i := 0; i < populationSize; i += 2`, each iteration selecting two
parents, producing the two complementary crossover children, mutating
both, appending the first child, and appending the second only while the
new population is still below `populationSize`.  `fuel` bounds recursion;
the wrapper passes `populationSize.toNat`, which never runs out because
`i` grows by 2 per iteration. -/
def createLoopGen (wT wR : Int) (population : Population)
    (tournamentSize populationSize : Int) (classes : List Class)
    (teachers : List Teacher) (rooms : List Room) (timeSlots : List TimeSlot)
    (mutationRate : Rat) :
    Nat → Int → List Chromosome → RandState →
      Option (List Chromosome × RandState)
  | fuel, i, newGeneration, r =>
    if i < populationSize then
      match fuel with
      | 0 => none
      | fuel + 1 =>
        match TournamentSelectionGen wT wR population tournamentSize classes r with
        | none => none
        | some (parent1, r) =>
          match TournamentSelectionGen wT wR population tournamentSize classes r with
          | none => none
          | some (parent2, r) =>
            match crossover parent1 parent2 r with
            | none => none
            | some (child1, r) =>
              match crossover parent2 parent1 r with
              | none => none
              | some (child2, r) =>
                match mutate child1 teachers rooms timeSlots mutationRate r with
                | none => none
                | some (mutatedChild1, r) =>
                  match mutate child2 teachers rooms timeSlots mutationRate r with
                  | none => none
                  | some (mutatedChild2, r) =>
                    let newGeneration := newGeneration ++ [mutatedChild1]
                    let newGeneration :=
                      if (newGeneration.length : Int) < populationSize then
                        newGeneration ++ [mutatedChild2]
                      else newGeneration
                    createLoopGen wT wR population tournamentSize populationSize
                      classes teachers rooms timeSlots mutationRate
                      fuel (i + 2) newGeneration r
    else some (newGeneration, r)

/-- `CreateNewGeneration` (main.go lines 166-187), penalty weights
abstracted as in `calculateFitnessGen`. -/
def CreateNewGenerationGen (wT wR : Int) (population : Population)
    (tournamentSize populationSize : Int) (classes : List Class)
    (teachers : List Teacher) (rooms : List Room) (timeSlots : List TimeSlot)
    (mutationRate : Rat) (r : RandState) : Option (Population × RandState) :=
  match createLoopGen wT wR population tournamentSize populationSize classes
      teachers rooms timeSlots mutationRate populationSize.toNat 0 [] r with
  | none => none
  | some (timetables, r) => some (⟨timetables⟩, r)

/-- `CreateNewGeneration` with src/main.go's fitness weights. -/
def CreateNewGeneration (population : Population)
    (tournamentSize populationSize : Int) (classes : List Class)
    (teachers : List Teacher) (rooms : List Room) (timeSlots : List TimeSlot)
    (mutationRate : Rat) (r : RandState) : Option (Population × RandState) :=
  CreateNewGenerationGen 10 1 population tournamentSize populationSize classes
    teachers rooms timeSlots mutationRate r

/-- `CreateNewGeneration` with part_001's fitness weights. -/
def CreateNewGenerationV (population : Population)
    (tournamentSize populationSize : Int) (classes : List Class)
    (teachers : List Teacher) (rooms : List Room) (timeSlots : List TimeSlot)
    (mutationRate : Rat) (r : RandState) : Option (Population × RandState) :=
  CreateNewGenerationGen 20 20 population tournamentSize populationSize classes
    teachers rooms timeSlots mutationRate r

/-- `BestTimetable` (part_001 lines 492-496); the mutex only guards the
two payload fields and has no sequential content. -/
structure BestTimetable where
  Timetable : Chromosome
  FitnessScore : Int
deriving Inhabited, DecidableEq

/-- The per-generation evaluation scan of part_001's `main` (lines
407-431): walk the new population, tracking the generation's best and the
all-generations best; on a strict all-time improvement commit the record,
and `break` out of the scan the moment a fitness of exactly 0 is seen.
Returns (best-in-generation, best-all-generations, record, number of
individuals evaluated). -/
def evalGeneration (timetables : List Chromosome) (classes : List Class)
    (bestFitnessInGeneration bestFitnessAllGenerations : Int)
    (bestTimetable : BestTimetable) : Int × Int × BestTimetable × Nat :=
  match timetables with
  | [] => (bestFitnessInGeneration, bestFitnessAllGenerations, bestTimetable, 0)
  | timetable :: rest =>
    let currentFitness := calculateFitnessV timetable classes
    if bestFitnessInGeneration < currentFitness then
      if bestFitnessAllGenerations < currentFitness then
        if currentFitness = 0 then
          (currentFitness, currentFitness, ⟨timetable, currentFitness⟩, 1)
        else
          match evalGeneration rest classes currentFitness currentFitness
              ⟨timetable, currentFitness⟩ with
          | (bg, ba, bt, n) => (bg, ba, bt, n + 1)
      else
        match evalGeneration rest classes currentFitness
            bestFitnessAllGenerations bestTimetable with
        | (bg, ba, bt, n) => (bg, ba, bt, n + 1)
    else
      match evalGeneration rest classes bestFitnessInGeneration
          bestFitnessAllGenerations bestTimetable with
      | (bg, ba, bt, n) => (bg, ba, bt, n + 1)

/-- part_001's generational driver loop (lines 403-435): per remaining
generation, produce a replacement population, scan it with
`evalGeneration` starting from `-100000000`, and stop the whole loop when
the scan's best-in-generation is 0.  Returns (best-all-generations,
record, generations produced, individuals evaluated in the last produced
generation). -/
def gaDriver (classes : List Class) (teachers : List Teacher)
    (rooms : List Room) (timeSlots : List TimeSlot)
    (tournamentSize populationSize : Int) (mutationRate : Rat) :
    Nat → Population → Int → BestTimetable → RandState →
      Option (Int × BestTimetable × Nat × Nat)
  | 0, _, bestFitnessAllGenerations, bestTimetable, _ =>
    some (bestFitnessAllGenerations, bestTimetable, 0, 0)
  | n + 1, population, bestFitnessAllGenerations, bestTimetable, r =>
    match CreateNewGenerationV population tournamentSize populationSize
        classes teachers rooms timeSlots mutationRate r with
    | none => none
    | some (population', r) =>
      match evalGeneration population'.Timetables classes (-100000000)
          bestFitnessAllGenerations bestTimetable with
      | (bestFitnessInGeneration, ba, bt, evaluated) =>
        if bestFitnessInGeneration = 0 then some (ba, bt, 1, evaluated)
        else
          match gaDriver classes teachers rooms timeSlots tournamentSize
              populationSize mutationRate n population' ba bt r with
          | none => none
          | some (baF, btF, generations, evaluatedLast) =>
            some (baF, btF, generations + 1, evaluatedLast)

/-- src/main.go's generational driver loop (lines 316-323): per
generation, produce a replacement population and evaluate only
`population.Timetables[1]` (a panic - `none` - when the new population has
fewer than two members); there is no early-stop check of any kind.
Returns the final population, the list of the per-generation evaluated
scores (one entry per generation actually produced), and the generator. -/
def mainDriver (classes : List Class) (teachers : List Teacher)
    (rooms : List Room) (timeSlots : List TimeSlot)
    (tournamentSize populationSize : Int) (mutationRate : Rat) :
    Nat → Population → RandState → Option (Population × List Int × RandState)
  | 0, population, r => some (population, [], r)
  | n + 1, population, r =>
    match CreateNewGeneration population tournamentSize populationSize
        classes teachers rooms timeSlots mutationRate r with
    | none => none
    | some (population', r) =>
      if 1 < population'.Timetables.length then
        let bestFitness :=
          calculateFitness (population'.Timetables.getD 1 default) classes
        match mainDriver classes teachers rooms timeSlots tournamentSize
            populationSize mutationRate n population' r with
        | none => none
        | some (populationF, fits, rF) =>
          some (populationF, bestFitness :: fits, rF)
      else none

/-- A heap of `Class` objects; cell `a` is the object a Go `*Class`
pointing at address `a` dereferences to. -/
structure Heap where
  cells : List Class
deriving Inhabited, DecidableEq

/-- A gene under the pointer model: `ClassAssignment` is the address of a
heap cell, exactly as the Go `Gene` holds a `*Class`. -/
structure GeneH where
  ClassAssignment : Nat
deriving Inhabited, DecidableEq

/-- A chromosome under the pointer model. -/
structure ChromosomeH where
  Genes : List GeneH
deriving Inhabited, DecidableEq

/-- The `Class` value a pointer-model gene currently denotes. -/
def geneValueH (h : Heap) (g : GeneH) : Class :=
  h.cells.getD g.ClassAssignment default

/-- `crossover` under the pointer model (main.go lines 190-203): the Go
loop appends `parent1.Genes[i]` / `parent2.Genes[i]`, copying the `Gene`
struct and therefore copying the `*Class` pointer, never allocating a new
`Class`. -/
def crossoverH (parent1 parent2 : ChromosomeH) (r : RandState) :
    Option (ChromosomeH × RandState) :=
  match randIntn r parent1.Genes.length with
  | none => none
  | some (crossoverPoint, r) =>
    if parent2.Genes.length < parent1.Genes.length then none
    else some
      (⟨(List.range parent1.Genes.length).map (fun i =>
          if i < crossoverPoint then parent1.Genes.getD i default
          else parent2.Genes.getD i default)⟩, r)

/-- The per-gene loop of `mutate` under the pointer model (main.go lines
207-220): `chromosome.Genes[i].ClassAssignment.Teacher = ...` writes a
field of the heap cell the gene points at; the gene list itself is
unchanged. -/
def mutateGenesH (genes : List GeneH) (teachers : List Teacher)
    (rooms : List Room) (timeSlots : List TimeSlot) (mutationRate : Rat)
    (h : Heap) (r : RandState) : Option (Heap × RandState) :=
  match genes with
  | [] => some (h, r)
  | g :: rest =>
    match randFloat64 r with
    | (f, r) =>
      if f < mutationRate then
        match randIntn r 3 with
        | none => none
        | some (mutationChoice, r) =>
          let cell := h.cells.getD g.ClassAssignment default
          if mutationChoice = 0 then
            match randIntn r teachers.length with
            | none => none
            | some (ti, r) =>
              mutateGenesH rest teachers rooms timeSlots mutationRate
                ⟨h.cells.set g.ClassAssignment
                  { cell with Teacher := teachers.getD ti default }⟩ r
          else if mutationChoice = 1 then
            match randIntn r rooms.length with
            | none => none
            | some (ri, r) =>
              mutateGenesH rest teachers rooms timeSlots mutationRate
                ⟨h.cells.set g.ClassAssignment
                  { cell with Room := rooms.getD ri default }⟩ r
          else if mutationChoice = 2 then
            match randIntn r timeSlots.length with
            | none => none
            | some (si, r) =>
              mutateGenesH rest teachers rooms timeSlots mutationRate
                ⟨h.cells.set g.ClassAssignment
                  { cell with TimeSlot := timeSlots.getD si default }⟩ r
          else mutateGenesH rest teachers rooms timeSlots mutationRate h r
      else mutateGenesH rest teachers rooms timeSlots mutationRate h r

/-- `mutate` under the pointer model: returns the same chromosome (same
gene list, same pointers) along with the updated heap. -/
def mutateH (chromosome : ChromosomeH) (teachers : List Teacher)
    (rooms : List Room) (timeSlots : List TimeSlot) (mutationRate : Rat)
    (h : Heap) (r : RandState) : Option (ChromosomeH × Heap × RandState) :=
  match mutateGenesH chromosome.Genes teachers rooms timeSlots mutationRate
      h r with
  | none => none
  | some (h, r) => some (chromosome, h, r)

/-- Sample teacher qualified for "Math" and available on weekday 1. -/
def tMath : Teacher :=
  { ID := "T1", Name := "Smith", Subjects := ["Math"], Available := [1] }

/-- A second teacher, qualified and available like `tMath` but with a
different identifier. -/
def tOther : Teacher :=
  { ID := "T2", Name := "Jones", Subjects := ["Math"], Available := [1] }

/-- Sample room. -/
def rm101 : Room := { ID := "R101", Capacity := 30 }

/-- Sample slot on weekday 1, 8-10. -/
def slotMon : TimeSlot := { Day := 1, Start := 8, End := 10 }

/-- Unassigned "Math" class template (catalog entry). -/
def clsMathTemplate : Class :=
  { Subject := "Math", Teacher := default, Room := default,
    TimeSlot := default, Capacity := 25 }

/-- The unique defect-free gene over the singleton catalogs. -/
def genePerfect : Gene :=
  ⟨{ Subject := "Math", Teacher := tMath, Room := rm101,
     TimeSlot := slotMon, Capacity := 25 }⟩

/-- A one-gene defect-free chromosome. -/
def chrPerfect : Chromosome := ⟨[genePerfect]⟩

/-- A one-gene chromosome whose teacher is not qualified for the subject
(fitness -1). -/
def geneBad : Gene :=
  ⟨{ Subject := "History", Teacher := tMath, Room := rm101,
     TimeSlot := slotMon, Capacity := 25 }⟩

/-- Chromosome holding `geneBad`. -/
def chrBad : Chromosome := ⟨[geneBad]⟩

/-- Generator whose streams are constantly 0. -/
def rng0 : RandState := ⟨fun _ => 0, fun _ => 0, 0, 0⟩

/-- Generator whose integer stream is the identity. -/
def rngId : RandState := ⟨fun k => k, fun _ => 0, 0, 0⟩

/-- Claim C1: for every structurally valid chromosome, `calculateFitness`
returns the sum, over every ordered pair of distinct gene positions whose
slots fall on the same weekday with overlapping half-open intervals, of
minus the teacher-conflict weight when the teacher IDs coincide and minus
the room-conflict weight when the room IDs coincide (each unordered
conflict is counted once per scan direction), plus, per gene, minus 1 for
an unqualified teacher, minus 1 for a class capacity exceeding the room
capacity, and minus 1 for a teacher unavailable on the slot's weekday.
src/main.go (and part_000) instantiate the conflict weights as 10
(teacher) and 1 (room); part_001 uses 20 for both. -/
theorem c1_fitness_is_sum_of_penalties (c : Chromosome) (classes : List Class) :
    calculateFitness c classes = fitnessSpec 10 1 c ∧
    calculateFitnessV c classes = fitnessSpec 20 20 c :=
  ⟨calculateFitnessGen_eq_spec 10 1 c classes,
   calculateFitnessGen_eq_spec 20 20 c classes⟩

/-- Claim C2: `calculateFitness` never returns a positive score, and on a
chromosome with no overlapping same-teacher pair, no overlapping same-room
pair, only qualified teachers, no capacity overflow, and only available
teachers it returns exactly 0. -/
theorem c2_defect_free_scores_zero (c : Chromosome) (classes : List Class) :
    calculateFitness c classes ≤ 0 ∧
    ((∀ p ∈ c.Genes.enum, ∀ q ∈ c.Genes.enum, p.1 ≠ q.1 →
        timeSlotsOverlap p.2.ClassAssignment.TimeSlot
          q.2.ClassAssignment.TimeSlot = true →
        p.2.ClassAssignment.Teacher.ID ≠ q.2.ClassAssignment.Teacher.ID ∧
        p.2.ClassAssignment.Room.ID ≠ q.2.ClassAssignment.Room.ID) →
      (∀ g ∈ c.Genes, checkTeacherQualification g.ClassAssignment.Teacher
        g.ClassAssignment.Subject = true) →
      (∀ g ∈ c.Genes, checkRoomCapacity g.ClassAssignment
        g.ClassAssignment.Room = true) →
      (∀ g ∈ c.Genes, checkTeacherAvailability g.ClassAssignment.Teacher
        g.ClassAssignment.TimeSlot = true) →
      calculateFitness c classes = 0) := by
  constructor
  · exact calculateFitnessGen_nonpos 10 1 (by norm_num) (by norm_num) c classes
  · intro h1 h2 h3 h4
    have hmem : ∀ p ∈ c.Genes.enum, p.2 ∈ c.Genes := by
      intro p hp
      exact List.snd_mem_of_mem_enum hp
    rw [calculateFitness, calculateFitnessGen_eq_spec]
    unfold fitnessSpec
    apply List.sum_eq_zero
    intro x hx
    rw [List.mem_map] at hx
    obtain ⟨p, hp, hpx⟩ := hx
    subst hpx
    have hpair : (c.Genes.enum.map (fun q =>
        if p.1 ≠ q.1 then pairConflictPenalty 10 1 p.2 q.2 else 0)).sum = 0 := by
      apply List.sum_eq_zero
      intro y hy
      rw [List.mem_map] at hy
      obtain ⟨q, hq, hqy⟩ := hy
      subst hqy
      by_cases hij : p.1 ≠ q.1
      · rw [if_pos hij]
        unfold pairConflictPenalty
        cases hov : timeSlotsOverlap p.2.ClassAssignment.TimeSlot
            q.2.ClassAssignment.TimeSlot
        · simp
        · obtain ⟨hT, hR⟩ := h1 p hp q hq hij hov
          simp [beq_iff_eq, hT, hR]
      · rw [if_neg hij]
    have hdef : geneDefectPenalty p.2 = 0 := by
      unfold geneDefectPenalty
      rw [h2 p.2 (hmem p hp), h3 p.2 (hmem p hp), h4 p.2 (hmem p hp)]
      simp
    rw [hpair, hdef]
    simp

/-- Witness for C2 at a concrete defect-free one-gene chromosome. -/
theorem c2_defect_free_scores_zero_witness : calculateFitness chrPerfect [] = 0 :=
  (c2_defect_free_scores_zero chrPerfect []).2
    (by decide) (by decide) (by decide) (by decide)

/-- Claim C10: the score depends only on the chromosome: the `classes`
argument is never read (any two class lists give the same score), and the
function is a pure function of the gene contents, for both fitness
variants. -/
theorem c10_fitness_ignores_classes (c : Chromosome)
    (classes1 classes2 : List Class) :
    calculateFitness c classes1 = calculateFitness c classes2 ∧
    calculateFitnessV c classes1 = calculateFitnessV c classes2 :=
  ⟨rfl, rfl⟩

/-- Pointer-model parent A: one gene pointing at heap cell 0. -/
def parentAH : ChromosomeH := ⟨[⟨0⟩]⟩

/-- Pointer-model parent B: one gene pointing at heap cell 1. -/
def parentBH : ChromosomeH := ⟨[⟨1⟩]⟩

/-- Heap before mutation: cell 0 holds `genePerfect`'s class, cell 1 holds
`geneBad`'s class (teacher `tMath`). -/
def heap0 : Heap := ⟨[genePerfect.ClassAssignment, geneBad.ClassAssignment]⟩

/-- Heap after the child's gene is mutated: cell 1's teacher was
overwritten with `tOther` through the shared pointer. -/
def heap1 : Heap :=
  ⟨[genePerfect.ClassAssignment,
    { geneBad.ClassAssignment with Teacher := tOther }]⟩

/-- The generator after the crossover cut draw. -/
def rngAfterCut : RandState := ⟨fun _ => 0, fun _ => 0, 1, 0⟩

/-- Claim C3 (the code violates it): `crossover` copies the `*Class`
pointers of the parents into the child (here the child's only gene is
parent B's gene, the same heap address), and a subsequent `mutate` of the
child writes the new teacher through that shared pointer, so parent B's
gene observes the modification - the parents do NOT retain their genes
unmodified. -/
theorem c3_crossover_child_aliases_parents :
    crossoverH parentAH parentBH rng0 =
      some (⟨[⟨1⟩]⟩, rngAfterCut) ∧
    (⟨[⟨1⟩]⟩ : ChromosomeH).Genes = parentBH.Genes ∧
    mutateH ⟨[⟨1⟩]⟩ [tOther] [rm101] [slotMon] 1 heap0 rngAfterCut =
      some (⟨[⟨1⟩]⟩, heap1, ⟨fun _ => 0, fun _ => 0, 3, 1⟩) ∧
    geneValueH heap1 (parentBH.Genes.getD 0 default) ≠
      geneValueH heap0 (parentBH.Genes.getD 0 default) := by
  refine ⟨by rfl, by rfl, by rfl, ?_⟩
  decide

/-- Claim C5 (the code violates it): the core performs no configuration
validation.  With `populationSize = 0` (non-positive) the generation
builder silently returns an empty population instead of rejecting; with
`mutationRate = 2` (outside [0,1]) `mutate` proceeds normally; an empty
teacher catalog is not rejected up front - the random-timetable
constructor only fails when its loop reaches the `rand.Intn(0)` draw
(panic, modelled as `none`). -/
theorem c5_no_configuration_validation :
    CreateNewGeneration ⟨[chrPerfect]⟩ 1 0 [] [] [] [] 0 rng0 =
      some (⟨[]⟩, rng0) ∧
    (mutate chrPerfect [tMath] [rm101] [slotMon] 2 rng0).isSome = true ∧
    initRandomTimetable [clsMathTemplate] [] [rm101] [slotMon] rng0 = none :=
  ⟨rfl, rfl, rfl⟩

/-- Reading position `i < n` of `(List.range n).map f` yields `f i`. -/
theorem getD_map_range {α : Type} (f : Nat → α) (n i : Nat) (d : α)
    (h : i < n) : ((List.range n).map f).getD i d = f i := by
  rw [List.getD_eq_getElem?_getD, List.getElem?_map, List.getElem?_range h]
  rfl

/-- Claim C8: on equal-length non-empty parents, `crossover` draws one cut
in `[0, geneCount)` (the next `Intn` draw mod the gene count), and the
child carries parent1's gene at every position before the cut and
parent2's gene at every position at or after it; the child's gene count
equals both parents'. -/
theorem c8_crossover_one_point (parent1 parent2 : Chromosome) (r : RandState)
    (hlen : parent1.Genes.length = parent2.Genes.length)
    (hne : parent1.Genes ≠ []) :
    ∃ child r',
      crossover parent1 parent2 r = some (child, r') ∧
      r.intStream r.intPos % parent1.Genes.length < parent1.Genes.length ∧
      child.Genes.length = parent1.Genes.length ∧
      child.Genes.length = parent2.Genes.length ∧
      ∀ i < parent1.Genes.length,
        child.Genes.getD i default =
          if i < r.intStream r.intPos % parent1.Genes.length
          then parent1.Genes.getD i default
          else parent2.Genes.getD i default := by
  have hlen0 : parent1.Genes.length ≠ 0 := by
    simpa [List.length_eq_zero] using hne
  refine ⟨⟨(List.range parent1.Genes.length).map (fun i =>
      if i < r.intStream r.intPos % parent1.Genes.length
      then parent1.Genes.getD i default
      else parent2.Genes.getD i default)⟩,
    { r with intPos := r.intPos + 1 }, ?_, ?_, ?_, ?_, ?_⟩
  · simp only [crossover, randIntn, if_neg hlen0,
      if_neg (by omega : ¬ parent2.Genes.length < parent1.Genes.length)]
  · exact Nat.mod_lt _ (Nat.pos_of_ne_zero hlen0)
  · simp
  · simp [hlen]
  · intro i hi
    exact getD_map_range _ _ i default hi

/-- Witness for C8 at one-gene parents and the all-zero generator. -/
theorem c8_crossover_one_point_witness :
    ∃ child r',
      crossover chrPerfect chrBad rng0 = some (child, r') ∧
      rng0.intStream rng0.intPos % chrPerfect.Genes.length <
        chrPerfect.Genes.length ∧
      child.Genes.length = chrPerfect.Genes.length ∧
      child.Genes.length = chrBad.Genes.length ∧
      ∀ i < chrPerfect.Genes.length,
        child.Genes.getD i default =
          if i < rng0.intStream rng0.intPos % chrPerfect.Genes.length
          then chrPerfect.Genes.getD i default
          else chrBad.Genes.getD i default :=
  c8_crossover_one_point chrPerfect chrBad rng0 (by decide) (by decide)

/-- Reading a position below the length yields a list member. -/
theorem getD_mem_of_lt {α : Type} (l : List α) (i : Nat) (d : α)
    (h : i < l.length) : l.getD i d ∈ l := by
  rw [List.getD_eq_getElem?_getD, List.getElem?_eq_getElem h]
  exact List.getElem_mem h

/-- The relation between an input gene and the corresponding output gene
of `mutate`: either unchanged, or exactly one of the three bindings was
replaced by a member of the respective catalog. -/
def MutatedFrom (teachers : List Teacher) (rooms : List Room)
    (timeSlots : List TimeSlot) (g g' : Gene) : Prop :=
  g' = g ∨
  (∃ t ∈ teachers, g' =
    { g with ClassAssignment := { g.ClassAssignment with Teacher := t } }) ∨
  (∃ ro ∈ rooms, g' =
    { g with ClassAssignment := { g.ClassAssignment with Room := ro } }) ∨
  (∃ s ∈ timeSlots, g' =
    { g with ClassAssignment := { g.ClassAssignment with TimeSlot := s } })

/-- Per-gene characterisation of the `mutate` loop: the output list has
the same length; position `i` keeps its subject and capacity; it is either
unchanged or has exactly one binding replaced by a catalog member; and it
is certainly unchanged when the gene's float draw (the `i`-th rational of
the stream) is not below the rate. -/
theorem mutateGenes_spec (teachers : List Teacher) (rooms : List Room)
    (timeSlots : List TimeSlot) (rate : Rat) :
    ∀ (genes : List Gene) (r : RandState) (genes' : List Gene)
      (r' : RandState),
      mutateGenes genes teachers rooms timeSlots rate r = some (genes', r') →
      genes'.length = genes.length ∧
      ∀ i < genes.length,
        ((genes'.getD i default).ClassAssignment.Subject =
            (genes.getD i default).ClassAssignment.Subject ∧
          (genes'.getD i default).ClassAssignment.Capacity =
            (genes.getD i default).ClassAssignment.Capacity) ∧
        MutatedFrom teachers rooms timeSlots (genes.getD i default)
          (genes'.getD i default) ∧
        (¬ r.ratStream (r.ratPos + i) < rate →
          genes'.getD i default = genes.getD i default) := by
  intro genes
  induction genes with
  | nil =>
    intro r genes' r' hout
    simp only [mutateGenes, Option.some.injEq, Prod.mk.injEq] at hout
    obtain ⟨h1, _⟩ := hout
    subst h1
    simp
  | cons g rest ih =>
    intro r genes' r' hout
    simp only [mutateGenes, randFloat64, randIntn] at hout
    by_cases hf : r.ratStream r.ratPos < rate
    · rw [if_pos hf, if_neg (show ¬ (3 = 0) by decide)] at hout
      simp only [] at hout
      by_cases hc0 : r.intStream r.intPos % 3 = 0
      · rw [if_pos hc0] at hout
        by_cases hT0 : teachers.length = 0
        · rw [if_pos hT0] at hout
          simp at hout
        · rw [if_neg hT0] at hout
          simp only [] at hout
          split at hout
          · exact absurd hout (by simp)
          · rename_i heq
            simp only [Option.some.injEq, Prod.mk.injEq] at hout
            obtain ⟨hgenes, hr⟩ := hout
            subst hgenes
            obtain ⟨ihlen, ihidx⟩ := ih _ _ _ heq
            refine ⟨by simp [ihlen], ?_⟩
            intro i hi
            cases i with
            | zero =>
              refine ⟨⟨rfl, rfl⟩, ?_, ?_⟩
              · exact Or.inr (Or.inl ⟨teachers.getD _ default,
                  getD_mem_of_lt _ _ _
                    (Nat.mod_lt _ (Nat.pos_of_ne_zero hT0)), rfl⟩)
              · intro hnot
                exact absurd (by simpa using hf) hnot
            | succ j =>
              have hj : j < rest.length := by
                simp only [List.length_cons] at hi
                omega
              obtain ⟨hsc, hmf, hun⟩ := ihidx j hj
              refine ⟨hsc, hmf, ?_⟩
              intro hnot
              apply hun
              have e : r.ratPos + 1 + j = r.ratPos + (j + 1) := by omega
              simpa [e] using hnot
      · rw [if_neg hc0] at hout
        by_cases hc1 : r.intStream r.intPos % 3 = 1
        · rw [if_pos hc1] at hout
          by_cases hR0 : rooms.length = 0
          · rw [if_pos hR0] at hout
            simp at hout
          · rw [if_neg hR0] at hout
            simp only [] at hout
            split at hout
            · exact absurd hout (by simp)
            · rename_i heq
              simp only [Option.some.injEq, Prod.mk.injEq] at hout
              obtain ⟨hgenes, hr⟩ := hout
              subst hgenes
              obtain ⟨ihlen, ihidx⟩ := ih _ _ _ heq
              refine ⟨by simp [ihlen], ?_⟩
              intro i hi
              cases i with
              | zero =>
                refine ⟨⟨rfl, rfl⟩, ?_, ?_⟩
                · exact Or.inr (Or.inr (Or.inl ⟨rooms.getD _ default,
                    getD_mem_of_lt _ _ _
                      (Nat.mod_lt _ (Nat.pos_of_ne_zero hR0)), rfl⟩))
                · intro hnot
                  exact absurd (by simpa using hf) hnot
              | succ j =>
                have hj : j < rest.length := by
                  simp only [List.length_cons] at hi
                  omega
                obtain ⟨hsc, hmf, hun⟩ := ihidx j hj
                refine ⟨hsc, hmf, ?_⟩
                intro hnot
                apply hun
                have e : r.ratPos + 1 + j = r.ratPos + (j + 1) := by omega
                simpa [e] using hnot
        · rw [if_neg hc1] at hout
          by_cases hc2 : r.intStream r.intPos % 3 = 2
          · rw [if_pos hc2] at hout
            by_cases hS0 : timeSlots.length = 0
            · rw [if_pos hS0] at hout
              simp at hout
            · rw [if_neg hS0] at hout
              simp only [] at hout
              split at hout
              · exact absurd hout (by simp)
              · rename_i heq
                simp only [Option.some.injEq, Prod.mk.injEq] at hout
                obtain ⟨hgenes, hr⟩ := hout
                subst hgenes
                obtain ⟨ihlen, ihidx⟩ := ih _ _ _ heq
                refine ⟨by simp [ihlen], ?_⟩
                intro i hi
                cases i with
                | zero =>
                  refine ⟨⟨rfl, rfl⟩, ?_, ?_⟩
                  · exact Or.inr (Or.inr (Or.inr ⟨timeSlots.getD _ default,
                      getD_mem_of_lt _ _ _
                        (Nat.mod_lt _ (Nat.pos_of_ne_zero hS0)), rfl⟩))
                  · intro hnot
                    exact absurd (by simpa using hf) hnot
                | succ j =>
                  have hj : j < rest.length := by
                    simp only [List.length_cons] at hi
                    omega
                  obtain ⟨hsc, hmf, hun⟩ := ihidx j hj
                  refine ⟨hsc, hmf, ?_⟩
                  intro hnot
                  apply hun
                  have e : r.ratPos + 1 + j = r.ratPos + (j + 1) := by omega
                  simpa [e] using hnot
          · rw [if_neg hc2] at hout
            split at hout
            · exact absurd hout (by simp)
            · rename_i heq
              simp only [Option.some.injEq, Prod.mk.injEq] at hout
              obtain ⟨hgenes, hr⟩ := hout
              subst hgenes
              obtain ⟨ihlen, ihidx⟩ := ih _ _ _ heq
              refine ⟨by simp [ihlen], ?_⟩
              intro i hi
              cases i with
              | zero =>
                exact ⟨⟨rfl, rfl⟩, Or.inl rfl, fun _ => rfl⟩
              | succ j =>
                have hj : j < rest.length := by
                  simp only [List.length_cons] at hi
                  omega
                obtain ⟨hsc, hmf, hun⟩ := ihidx j hj
                refine ⟨hsc, hmf, ?_⟩
                intro hnot
                apply hun
                have e : r.ratPos + 1 + j = r.ratPos + (j + 1) := by omega
                simpa [e] using hnot
    · rw [if_neg hf] at hout
      split at hout
      · exact absurd hout (by simp)
      · rename_i heq
        simp only [Option.some.injEq, Prod.mk.injEq] at hout
        obtain ⟨hgenes, hr⟩ := hout
        subst hgenes
        obtain ⟨ihlen, ihidx⟩ := ih _ _ _ heq
        refine ⟨by simp [ihlen], ?_⟩
        intro i hi
        cases i with
        | zero =>
          exact ⟨⟨rfl, rfl⟩, Or.inl rfl, fun _ => rfl⟩
        | succ j =>
          have hj : j < rest.length := by
            simp only [List.length_cons] at hi
            omega
          obtain ⟨hsc, hmf, hun⟩ := ihidx j hj
          refine ⟨hsc, hmf, ?_⟩
          intro hnot
          apply hun
          have e : r.ratPos + 1 + j = r.ratPos + (j + 1) := by omega
          simpa [e] using hnot

/-- With rate 0 and nonnegative float draws, the `mutate` loop is the
identity on the gene list (only the float cursor advances). -/
theorem mutateGenes_rate_zero (teachers : List Teacher) (rooms : List Room)
    (timeSlots : List TimeSlot) :
    ∀ (genes : List Gene) (r : RandState),
      (∀ k, 0 ≤ r.ratStream k) →
      mutateGenes genes teachers rooms timeSlots 0 r =
        some (genes, { r with ratPos := r.ratPos + genes.length }) := by
  intro genes
  induction genes with
  | nil => intro r hpos; simp [mutateGenes]
  | cons g rest ih =>
    intro r hpos
    have hnot : ¬ r.ratStream r.ratPos < (0 : Rat) := by
      exact not_lt.mpr (hpos r.ratPos)
    simp only [mutateGenes, randFloat64, if_neg hnot]
    rw [ih { r with ratPos := r.ratPos + 1 } (fun k => hpos k)]
    have e : r.ratPos + 1 + rest.length = r.ratPos + (rest.length + 1) := by
      omega
    simp [e]

/-- Claim C9: `mutate` preserves the gene count and every gene's subject
and required capacity; each gene is, independently of the others, left
unchanged when its float draw is not below `mutationRate`, and otherwise
has exactly one of teacher/room/time-slot replaced by a member of the
respective catalog (per the choice and index draws); with rate 0 (and the
float draws in [0,1) as `rand.Float64` guarantees) no binding ever
changes. -/
theorem c9_mutate_shape (chromosome : Chromosome) (teachers : List Teacher)
    (rooms : List Room) (timeSlots : List TimeSlot) (mutationRate : Rat)
    (r : RandState) (c' : Chromosome) (r' : RandState)
    (hout : mutate chromosome teachers rooms timeSlots mutationRate r =
      some (c', r')) :
    c'.Genes.length = chromosome.Genes.length ∧
    (∀ i < chromosome.Genes.length,
      ((c'.Genes.getD i default).ClassAssignment.Subject =
          (chromosome.Genes.getD i default).ClassAssignment.Subject ∧
        (c'.Genes.getD i default).ClassAssignment.Capacity =
          (chromosome.Genes.getD i default).ClassAssignment.Capacity) ∧
      MutatedFrom teachers rooms timeSlots
        (chromosome.Genes.getD i default) (c'.Genes.getD i default) ∧
      (¬ r.ratStream (r.ratPos + i) < mutationRate →
        c'.Genes.getD i default = chromosome.Genes.getD i default)) ∧
    (mutationRate = 0 → (∀ k, 0 ≤ r.ratStream k) → c' = chromosome) := by
  unfold mutate at hout
  split at hout
  · exact absurd hout (by simp)
  · rename_i heq
    simp only [Option.some.injEq, Prod.mk.injEq] at hout
    obtain ⟨hc, hr⟩ := hout
    subst hc
    obtain ⟨hlen, hidx⟩ :=
      mutateGenes_spec teachers rooms timeSlots mutationRate
        chromosome.Genes r _ _ heq
    refine ⟨hlen, hidx, ?_⟩
    intro hrate hpos
    subst hrate
    rw [mutateGenes_rate_zero teachers rooms timeSlots chromosome.Genes r hpos]
      at heq
    simp only [Option.some.injEq, Prod.mk.injEq] at heq
    obtain ⟨hg, _⟩ := heq
    cases chromosome
    simp [← hg]

/-- Witness for C9: a one-gene chromosome under rate 1 with the all-zero
generator has its teacher replaced by the only catalog teacher. -/
theorem c9_mutate_shape_witness :
    (⟨[⟨{ genePerfect.ClassAssignment with Teacher := tOther }⟩]⟩ :
        Chromosome).Genes.length = chrPerfect.Genes.length ∧
    (∀ i < chrPerfect.Genes.length,
      (((⟨[⟨{ genePerfect.ClassAssignment with Teacher := tOther }⟩]⟩ :
            Chromosome).Genes.getD i default).ClassAssignment.Subject =
          (chrPerfect.Genes.getD i default).ClassAssignment.Subject ∧
        ((⟨[⟨{ genePerfect.ClassAssignment with Teacher := tOther }⟩]⟩ :
            Chromosome).Genes.getD i default).ClassAssignment.Capacity =
          (chrPerfect.Genes.getD i default).ClassAssignment.Capacity) ∧
      MutatedFrom [tOther] [rm101] [slotMon]
        (chrPerfect.Genes.getD i default)
        ((⟨[⟨{ genePerfect.ClassAssignment with Teacher := tOther }⟩]⟩ :
            Chromosome).Genes.getD i default) ∧
      (¬ rng0.ratStream (rng0.ratPos + i) < 1 →
        (⟨[⟨{ genePerfect.ClassAssignment with Teacher := tOther }⟩]⟩ :
            Chromosome).Genes.getD i default =
          chrPerfect.Genes.getD i default)) ∧
    ((1 : Rat) = 0 → (∀ k, 0 ≤ rng0.ratStream k) →
      (⟨[⟨{ genePerfect.ClassAssignment with Teacher := tOther }⟩]⟩ :
        Chromosome) = chrPerfect) :=
  c9_mutate_shape chrPerfect [tOther] [rm101] [slotMon] 1 rng0
    ⟨[⟨{ genePerfect.ClassAssignment with Teacher := tOther }⟩]⟩
    ⟨fun _ => 0, fun _ => 0, 2, 1⟩ (by rfl)

/-- The indices drawn by `n` successive `rand.Intn len` calls starting
from generator state `r`. -/
def drawList (r : RandState) (n len : Nat) : List Nat :=
  (List.range n).map (fun k => r.intStream (r.intPos + k) % len)

/-- The first-seen-best fold: a later draw replaces the incumbent only
when its fitness is strictly greater. -/
def pickFirstBest (fit : Nat → Int) (d0 : Nat) (ds : List Nat) : Nat :=
  ds.foldl (fun best d => if fit best < fit d then d else best) d0

/-- Position `k` holds the strictly-first maximum of `fit` over the list:
every entry is `≤` the entry at `k`, and every earlier entry is `<` it. -/
def IsFirstMaxAt (fit : Nat → Int) (l : List Nat) (k : Nat) : Prop :=
  k < l.length ∧
  (∀ j < l.length, fit (l.getD j 0) ≤ fit (l.getD k 0)) ∧
  (∀ j < k, fit (l.getD j 0) < fit (l.getD k 0))

theorem drawList_length (r : RandState) (n len : Nat) :
    (drawList r n len).length = n := by
  simp [drawList]

theorem drawList_mem_lt (r : RandState) (n len : Nat) (hlen : len ≠ 0) :
    ∀ x ∈ drawList r n len, x < len := by
  intro x hx
  simp only [drawList, List.mem_map] at hx
  obtain ⟨k, _, hk⟩ := hx
  subst hk
  exact Nat.mod_lt _ (Nat.pos_of_ne_zero hlen)

theorem drawList_succ (r : RandState) (n len : Nat) :
    drawList r (n + 1) len =
      (r.intStream r.intPos % len) :: drawList (advInt r 1) n len := by
  unfold drawList advInt
  rw [List.range_succ_eq_map, List.map_cons, List.map_map]
  refine congrArg₂ _ (by simp) ?_
  apply List.map_congr_left
  intro a _
  simp only [Function.comp]
  congr 2
  omega

theorem pickFirstBest_mem (fit : Nat → Int) :
    ∀ (ds : List Nat) (d0 : Nat), pickFirstBest fit d0 ds ∈ d0 :: ds := by
  intro ds
  induction ds with
  | nil => intro d0; simp [pickFirstBest]
  | cons d ds ih =>
    intro d0
    have hstep : pickFirstBest fit d0 (d :: ds) =
        pickFirstBest fit (if fit d0 < fit d then d else d0) ds := rfl
    rw [hstep]
    by_cases hlt : fit d0 < fit d
    · rw [if_pos hlt]
      have := ih d
      simp only [List.mem_cons] at this ⊢
      tauto
    · rw [if_neg hlt]
      have := ih d0
      simp only [List.mem_cons] at this ⊢
      tauto

theorem pickFirstBest_firstMax (fit : Nat → Int) :
    ∀ (ds : List Nat) (d0 : Nat),
      ∃ k, IsFirstMaxAt fit (d0 :: ds) k ∧
        pickFirstBest fit d0 ds = (d0 :: ds).getD k 0 := by
  intro ds
  induction ds with
  | nil =>
    intro d0
    refine ⟨0, ⟨by simp, ?_, by omega⟩, rfl⟩
    intro j hj
    simp only [List.length_cons, List.length_nil] at hj
    have hj0 : j = 0 := by omega
    subst hj0
    simp
  | cons d ds ih =>
    intro d0
    have hstep : pickFirstBest fit d0 (d :: ds) =
        pickFirstBest fit (if fit d0 < fit d then d else d0) ds := rfl
    by_cases hlt : fit d0 < fit d
    · obtain ⟨k', ⟨hk'len, hk'max, hk'str⟩, hk'pick⟩ := ih d
      refine ⟨k' + 1, ⟨?_, ?_, ?_⟩, ?_⟩
      · simpa using Nat.succ_lt_succ hk'len
      · intro j hj
        cases j with
        | zero =>
          have hd : fit ((d :: ds).getD 0 0) ≤ fit ((d :: ds).getD k' 0) :=
            hk'max 0 (by simp)
          simp only [List.getD_cons_zero, List.getD_cons_succ] at hd ⊢
          omega
        | succ j' =>
          have : j' < (d :: ds).length := by
            simp only [List.length_cons] at hj ⊢
            omega
          have := hk'max j' this
          simpa using this
      · intro j hj
        cases j with
        | zero =>
          have hd : fit ((d :: ds).getD 0 0) ≤ fit ((d :: ds).getD k' 0) :=
            hk'max 0 (by simp)
          simp only [List.getD_cons_zero, List.getD_cons_succ] at hd ⊢
          omega
        | succ j' =>
          have := hk'str j' (by omega)
          simpa using this
      · rw [hstep, if_pos hlt]
        simpa using hk'pick
    · obtain ⟨k', ⟨hk'len, hk'max, hk'str⟩, hk'pick⟩ := ih d0
      cases k' with
      | zero =>
        refine ⟨0, ⟨by simp, ?_, by omega⟩, ?_⟩
        · intro j hj
          cases j with
          | zero => simp
          | succ j' =>
            cases j' with
            | zero =>
              simp only [List.getD_cons_zero, List.getD_cons_succ]
              omega
            | succ j'' =>
              have : j'' + 1 < (d0 :: ds).length := by
                simp only [List.length_cons] at hj ⊢
                omega
              have := hk'max (j'' + 1) this
              simpa using this
        · rw [hstep, if_neg hlt]
          simpa using hk'pick
      | succ k'' =>
        refine ⟨k'' + 2, ⟨?_, ?_, ?_⟩, ?_⟩
        · simp only [List.length_cons] at hk'len ⊢
          omega
        · intro j hj
          cases j with
          | zero =>
            have := hk'max 0 (by simp)
            simpa using this
          | succ j' =>
            cases j' with
            | zero =>
              have h0 := hk'max 0 (by simp)
              have hkk : fit ((d0 :: ds).getD (k'' + 1) 0) =
                  fit (((d0 :: d :: ds)).getD (k'' + 2) 0) := by
                simp
              simp only [List.getD_cons_zero, List.getD_cons_succ] at h0 ⊢
              omega
            | succ j'' =>
              have : j'' + 1 < (d0 :: ds).length := by
                simp only [List.length_cons] at hj ⊢
                omega
              have := hk'max (j'' + 1) this
              simpa using this
        · intro j hj
          cases j with
          | zero =>
            have := hk'str 0 (by omega)
            simpa using this
          | succ j' =>
            cases j' with
            | zero =>
              have h0 := hk'str 0 (by omega)
              simp only [List.getD_cons_zero, List.getD_cons_succ] at h0 ⊢
              omega
            | succ j'' =>
              have := hk'str (j'' + 1) (by omega)
              simpa using this
        · rw [hstep, if_neg hlt]
          simpa using hk'pick

/-- Once a real incumbent `b` (with its true fitness) is installed, the
tournament loop computes the first-seen-best fold over the remaining
draws and advances the generator by one `Intn` draw per iteration. -/
theorem tournamentLoop_from_valid (wT wR : Int) (population : Population)
    (classes : List Class) (hlen : population.Timetables.length ≠ 0) :
    ∀ (n : Nat) (b : Nat) (r : RandState),
      tournamentLoopGen wT wR population classes n (b : Int)
        (calculateFitnessGen wT wR (population.Timetables.getD b default)
          classes) r =
      some ((pickFirstBest
          (fun d => calculateFitnessGen wT wR
            (population.Timetables.getD d default) classes)
          b (drawList r n population.Timetables.length) : Int),
        calculateFitnessGen wT wR
          (population.Timetables.getD (pickFirstBest
            (fun d => calculateFitnessGen wT wR
              (population.Timetables.getD d default) classes)
            b (drawList r n population.Timetables.length)) default) classes,
        advInt r n) := by
  intro n
  induction n with
  | zero =>
    intro b r
    simp only [tournamentLoopGen, drawList, List.range_zero, List.map_nil]
    rfl
  | succ n ih =>
    intro b r
    simp only [tournamentLoopGen, randIntn, if_neg hlen]
    rw [drawList_succ]
    set fit := fun d => calculateFitnessGen wT wR
      (population.Timetables.getD d default) classes with hfit
    have hstep : ∀ rest d0, pickFirstBest fit d0 (d0 :: rest) =
        pickFirstBest fit (if fit d0 < fit d0 then d0 else d0) rest := by
      intro rest d0; rfl
    by_cases hcmp : fit b < fit (r.intStream r.intPos %
        population.Timetables.length)
    · rw [if_pos (Or.inr hcmp)]
      have := ih (r.intStream r.intPos % population.Timetables.length)
        (advInt r 1)
      rw [show (advInt r 1) = { r with intPos := r.intPos + 1 } from rfl]
        at this
      rw [this]
      have hpick : pickFirstBest fit b
          ((r.intStream r.intPos % population.Timetables.length) ::
            drawList (advInt r 1) n population.Timetables.length) =
          pickFirstBest fit
            (r.intStream r.intPos % population.Timetables.length)
            (drawList (advInt r 1) n population.Timetables.length) := by
        unfold pickFirstBest
        rw [List.foldl_cons, if_pos hcmp]
      rw [show ({ r with intPos := r.intPos + 1 } : RandState) =
        advInt r 1 from rfl, hpick, ← advInt_succ]
    · have hb : ¬ ((b : Int) = -1) := by omega
      rw [if_neg (not_or.mpr ⟨hb, hcmp⟩)]
      have := ih b (advInt r 1)
      rw [show (advInt r 1) = { r with intPos := r.intPos + 1 } from rfl]
        at this
      rw [this]
      have hpick : pickFirstBest fit b
          ((r.intStream r.intPos % population.Timetables.length) ::
            drawList (advInt r 1) n population.Timetables.length) =
          pickFirstBest fit b
            (drawList (advInt r 1) n population.Timetables.length) := by
        unfold pickFirstBest
        rw [List.foldl_cons, if_neg hcmp]
      rw [show ({ r with intPos := r.intPos + 1 } : RandState) =
        advInt r 1 from rfl, hpick, ← advInt_succ]

/-- Full characterisation of `TournamentSelection`: with at least one
round and a non-empty population it returns the population entry at the
draw holding the strictly-first maximum fitness among the
`tournamentSize` draws. -/
theorem TournamentSelectionGen_spec (wT wR : Int) (population : Population)
    (tournamentSize : Int) (classes : List Class) (r : RandState)
    (hts : 1 ≤ tournamentSize) (hne : population.Timetables ≠ []) :
    ∃ k, IsFirstMaxAt
        (fun d => calculateFitnessGen wT wR
          (population.Timetables.getD d default) classes)
        (drawList r tournamentSize.toNat population.Timetables.length) k ∧
      TournamentSelectionGen wT wR population tournamentSize classes r =
        some (population.Timetables.getD
          ((drawList r tournamentSize.toNat
            population.Timetables.length).getD k 0) default,
          advInt r tournamentSize.toNat) := by
  have hlen : population.Timetables.length ≠ 0 := by
    simpa [List.length_eq_zero] using hne
  set fit := fun d => calculateFitnessGen wT wR
    (population.Timetables.getD d default) classes with hfit
  obtain ⟨m, hm⟩ : ∃ m, tournamentSize.toNat = m + 1 := by
    refine ⟨tournamentSize.toNat - 1, ?_⟩
    omega
  unfold TournamentSelectionGen
  rw [hm]
  simp only [tournamentLoopGen, randIntn, if_neg hlen, true_or, if_true]
  have hloop := tournamentLoop_from_valid wT wR population classes hlen m
    (r.intStream r.intPos % population.Timetables.length)
    { r with intPos := r.intPos + 1 }
  rw [hloop]
  set d0 := r.intStream r.intPos % population.Timetables.length with hd0
  set rest := drawList { r with intPos := r.intPos + 1 } m
    population.Timetables.length with hrest
  have hcons : drawList r (m + 1) population.Timetables.length =
      d0 :: rest := by
    rw [drawList_succ]
    rfl
  obtain ⟨k, hisf, hpick⟩ := pickFirstBest_firstMax fit rest d0
  have hw : pickFirstBest fit d0 rest < population.Timetables.length := by
    have hmem := pickFirstBest_mem fit rest d0
    rw [← hcons] at hmem
    exact drawList_mem_lt r (m + 1) population.Timetables.length hlen _ hmem
  simp only []
  rw [if_pos (show (0 : Int) ≤ ((pickFirstBest fit d0 rest : Nat) : Int) ∧
      (((pickFirstBest fit d0 rest : Nat) : Int)).toNat <
        population.Timetables.length from
    ⟨Int.natCast_nonneg _, by simpa using hw⟩)]
  refine ⟨k, by rw [hcons]; exact hisf, ?_⟩
  rw [show ({ r with intPos := r.intPos + 1 } : RandState) =
    advInt r 1 from rfl, ← advInt_succ]
  have : (drawList r (m + 1) population.Timetables.length).getD k 0 =
      pickFirstBest fit d0 rest := by
    rw [hcons, hpick]
  rw [this]
  rfl

/-- Claim C7: `TournamentSelection` with `tournamentSize ≥ 1` on a
non-empty population takes `tournamentSize` index draws (each a stream
value reduced modulo the population size, hence in range), and returns
the drawn chromosome with the strictly highest fitness among the draws,
first-seen winning ties: a later draw replaces the incumbent only when
its score is strictly greater. -/
theorem c7_tournament_selects_first_best (population : Population)
    (tournamentSize : Int) (classes : List Class) (r : RandState)
    (hts : 1 ≤ tournamentSize) (hne : population.Timetables ≠ []) :
    (drawList r tournamentSize.toNat population.Timetables.length).length =
      tournamentSize.toNat ∧
    (∀ d ∈ drawList r tournamentSize.toNat population.Timetables.length,
      d < population.Timetables.length) ∧
    ∃ k, IsFirstMaxAt
        (fun d => calculateFitness (population.Timetables.getD d default)
          classes)
        (drawList r tournamentSize.toNat population.Timetables.length) k ∧
      TournamentSelection population tournamentSize classes r =
        some (population.Timetables.getD
          ((drawList r tournamentSize.toNat
            population.Timetables.length).getD k 0) default,
          advInt r tournamentSize.toNat) := by
  have hlen : population.Timetables.length ≠ 0 := by
    simpa [List.length_eq_zero] using hne
  refine ⟨drawList_length r tournamentSize.toNat population.Timetables.length,
    drawList_mem_lt r tournamentSize.toNat population.Timetables.length hlen,
    ?_⟩
  exact TournamentSelectionGen_spec 10 1 population tournamentSize classes r
    hts hne

/-- Witness for C7: two draws over a two-chromosome population where the
second draw is the strict maximum. -/
theorem c7_tournament_selects_first_best_witness :
    (drawList rngId (2 : Int).toNat
      (⟨[chrBad, chrPerfect]⟩ : Population).Timetables.length).length =
        (2 : Int).toNat ∧
    (∀ d ∈ drawList rngId (2 : Int).toNat
        (⟨[chrBad, chrPerfect]⟩ : Population).Timetables.length,
      d < (⟨[chrBad, chrPerfect]⟩ : Population).Timetables.length) ∧
    ∃ k, IsFirstMaxAt
        (fun d => calculateFitness
          ((⟨[chrBad, chrPerfect]⟩ : Population).Timetables.getD d default)
          [])
        (drawList rngId (2 : Int).toNat
          (⟨[chrBad, chrPerfect]⟩ : Population).Timetables.length) k ∧
      TournamentSelection ⟨[chrBad, chrPerfect]⟩ 2 [] rngId =
        some ((⟨[chrBad, chrPerfect]⟩ : Population).Timetables.getD
          ((drawList rngId (2 : Int).toNat
            (⟨[chrBad, chrPerfect]⟩ : Population).Timetables.length).getD
              k 0) default,
          advInt rngId (2 : Int).toNat) :=
  c7_tournament_selects_first_best ⟨[chrBad, chrPerfect]⟩ 2 [] rngId
    (by norm_num) (by decide)

/-- Loop invariant of `CreateNewGeneration`: entering an iteration with
`(acc.length : Int) = min i populationSize`, any normal completion ends
with exactly `populationSize` chromosomes (appending the first child
always and the second only while still below the target). -/
theorem createLoopGen_length (wT wR : Int) (population : Population)
    (tournamentSize populationSize : Int) (classes : List Class)
    (teachers : List Teacher) (rooms : List Room) (timeSlots : List TimeSlot)
    (mutationRate : Rat) :
    ∀ (fuel : Nat) (i : Int) (acc : List Chromosome) (r : RandState)
      (out : List Chromosome) (r' : RandState),
      (acc.length : Int) = min i populationSize →
      createLoopGen wT wR population tournamentSize populationSize classes
        teachers rooms timeSlots mutationRate fuel i acc r = some (out, r') →
      (out.length : Int) = populationSize := by
  intro fuel
  induction fuel with
  | zero =>
    intro i acc r out r' hacc hout
    simp only [createLoopGen] at hout
    split at hout
    · exact absurd hout (by simp)
    · rename_i hexit
      simp only [Option.some.injEq, Prod.mk.injEq] at hout
      obtain ⟨h1, _⟩ := hout
      subst h1
      omega
  | succ fuel ih =>
    intro i acc r out r' hacc hout
    simp only [createLoopGen] at hout
    split at hout
    · rename_i hlt
      split at hout
      · exact absurd hout (by simp)
      · rename_i heq1
        split at hout
        · exact absurd hout (by simp)
        · rename_i heq2
          split at hout
          · exact absurd hout (by simp)
          · rename_i heq3
            split at hout
            · exact absurd hout (by simp)
            · rename_i heq4
              split at hout
              · exact absurd hout (by simp)
              · rename_i heq5
                split at hout
                · exact absurd hout (by simp)
                · rename_i heq6
                  split at hout
                  · rename_i hroom
                    refine ih (i + 2) _ _ out r' ?_ hout
                    simp only [List.length_append, List.length_cons,
                      List.length_nil] at hroom ⊢
                    push_cast at hacc hroom ⊢
                    omega
                  · rename_i hroom
                    refine ih (i + 2) _ _ out r' ?_ hout
                    simp only [List.length_append, List.length_cons,
                      List.length_nil] at hroom ⊢
                    push_cast at hacc hroom ⊢
                    omega
    · rename_i hexit
      simp only [Option.some.injEq, Prod.mk.injEq] at hout
      obtain ⟨h1, _⟩ := hout
      subst h1
      omega

/-- Claim C6: whenever `CreateNewGeneration` completes normally on a
non-empty population with `populationSize ≥ 1`, the new population holds
exactly `populationSize` chromosomes - for odd sizes the final iteration
contributes only its first child (the truncation rule), so the size is
constant across generations. -/
theorem c6_generation_size_constant (population : Population)
    (tournamentSize populationSize : Int) (classes : List Class)
    (teachers : List Teacher) (rooms : List Room) (timeSlots : List TimeSlot)
    (mutationRate : Rat) (r : RandState) (newPopulation : Population)
    (r' : RandState)
    (hsize : 1 ≤ populationSize)
    (hpop : population.Timetables ≠ [])
    (hout : CreateNewGeneration population tournamentSize populationSize
      classes teachers rooms timeSlots mutationRate r =
        some (newPopulation, r')) :
    (newPopulation.Timetables.length : Int) = populationSize := by
  unfold CreateNewGeneration CreateNewGenerationGen at hout
  split at hout
  · exact absurd hout (by simp)
  · rename_i heq
    simp only [Option.some.injEq, Prod.mk.injEq] at hout
    obtain ⟨h1, _⟩ := hout
    subst h1
    exact createLoopGen_length 10 1 population tournamentSize populationSize
      classes teachers rooms timeSlots mutationRate populationSize.toNat 0 []
      r _ _ (by simp; omega) heq

set_option maxHeartbeats 4000000 in
/-- Witness for C6 at the odd size 3: the loop runs twice and appends
only the first child of the second iteration. -/
theorem c6_generation_size_constant_witness :
    (((⟨[chrPerfect, chrPerfect, chrPerfect]⟩ :
      Population)).Timetables.length : Int) = 3 :=
  c6_generation_size_constant ⟨[chrPerfect]⟩ 1 3 [] [tMath] [rm101] [slotMon]
    0 rng0 ⟨[chrPerfect, chrPerfect, chrPerfect]⟩
    ⟨fun _ => 0, fun _ => 0, 8, 4⟩ (by norm_num) (by decide) (by rfl)

/-- The part_001 evaluation scan, entered with negative best trackers,
stops at the first individual scoring 0: every strictly negative prefix
individual is evaluated and then the zero scorer ends the scan with the
record committed, leaving the suffix unevaluated. -/
theorem evalGeneration_stops_at_zero (classes : List Class)
    (post : List Chromosome) (z : Chromosome)
    (hz : calculateFitnessV z classes = 0) :
    ∀ (pre : List Chromosome) (bg ba : Int) (bt : BestTimetable),
      bg < 0 → ba < 0 →
      (∀ c ∈ pre, calculateFitnessV c classes < 0) →
      evalGeneration (pre ++ z :: post) classes bg ba bt =
        (0, 0, ⟨z, 0⟩, pre.length + 1) := by
  intro pre
  induction pre with
  | nil =>
    intro bg ba bt hbg hba hpre
    simp only [List.nil_append, evalGeneration, hz]
    rw [if_pos hbg, if_pos hba]
    simp
  | cons c pre ihp =>
    intro bg ba bt hbg hba hpre
    have hc : calculateFitnessV c classes < 0 :=
      hpre c (List.mem_cons_self c pre)
    have hrest : ∀ x ∈ pre, calculateFitnessV x classes < 0 :=
      fun x hx => hpre x (List.mem_cons_of_mem c hx)
    simp only [List.cons_append, evalGeneration, List.append_eq]
    by_cases h1 : bg < calculateFitnessV c classes
    · rw [if_pos h1]
      by_cases h2 : ba < calculateFitnessV c classes
      · rw [if_pos h2, if_neg (by omega : ¬ calculateFitnessV c classes = 0),
          ihp (calculateFitnessV c classes) (calculateFitnessV c classes)
            ⟨c, calculateFitnessV c classes⟩ hc hc hrest]
        simp
      · rw [if_neg h2, ihp (calculateFitnessV c classes) ba bt hc hba hrest]
        simp
    · rw [if_neg h1, ihp bg ba bt hbg hba hrest]
      simp

/-- Claim C4 (amended to part_001's driver, the one that scans
individuals): when the all-generations best is still negative and the
freshly produced generation decomposes as a strictly-negative prefix,
a zero scorer `z`, and a suffix, the driver evaluates exactly the prefix
and `z` (the suffix is never evaluated), commits `z` with score 0, and
produces no further generation - the run concludes with this one
generation regardless of the remaining budget. -/
theorem c4_part001_driver_early_stop (population : Population)
    (classes : List Class) (teachers : List Teacher) (rooms : List Room)
    (timeSlots : List TimeSlot) (tournamentSize populationSize : Int)
    (mutationRate : Rat) (n : Nat) (ba : Int) (bt : BestTimetable)
    (r : RandState) (population' : Population) (r' : RandState)
    (pre post : List Chromosome) (z : Chromosome)
    (hba : ba < 0)
    (hgen : CreateNewGenerationV population tournamentSize populationSize
      classes teachers rooms timeSlots mutationRate r =
        some (population', r'))
    (hsplit : population'.Timetables = pre ++ z :: post)
    (hpre : ∀ c ∈ pre, calculateFitnessV c classes < 0)
    (hz : calculateFitnessV z classes = 0) :
    gaDriver classes teachers rooms timeSlots tournamentSize populationSize
      mutationRate (n + 1) population ba bt r =
      some (0, ⟨z, 0⟩, 1, pre.length + 1) := by
  simp only [gaDriver]
  rw [hgen]
  simp only []
  rw [hsplit, evalGeneration_stops_at_zero classes post z hz pre
    (-100000000) ba bt (by norm_num) hba hpre]
  simp

/-- Witness for the C4 theorem: a forced-perfect catalog where the first
produced generation's single individual scores 0; the driver stops with
one generation produced and one individual evaluated, with budget left. -/
theorem c4_part001_driver_early_stop_witness :
    gaDriver [] [tMath] [rm101] [slotMon] 1 1 0 5 ⟨[chrPerfect]⟩
      (-100000000) default rng0 = some (0, ⟨chrPerfect, 0⟩, 1, 1) :=
  c4_part001_driver_early_stop ⟨[chrPerfect]⟩ [] [tMath] [rm101] [slotMon]
    1 1 0 4 (-100000000) default rng0 ⟨[chrPerfect]⟩
    ⟨fun _ => 0, fun _ => 0, 4, 2⟩ [] [] chrPerfect
    (by norm_num) (by rfl) rfl (by simp) (by decide)

set_option maxHeartbeats 4000000 in
/-- Counterexample to claim C4 as stated: src/main.go's generational
driver (modelled by `mainDriver`) has no early stop at all - over the
forced-perfect catalog its generation-1 evaluation already yields
fitness 0, yet a second generation is still produced (the per-generation
score list has two entries). -/
theorem c4_main_driver_ignores_zero :
    (mainDriver [] [tMath] [rm101] [slotMon] 1 2 0 2 ⟨[chrPerfect]⟩
      rng0).map (fun x => x.2.1) = some [0, 0] := by
  rfl

end Splan
